import Mathlib

/-!
Field controller (`modules/ui/field.js`).

A shallow embedding of the predicate engine and the mutation actions of
`uiField`, the controller of one editable field of the tag editor.

Modelling conventions.

* A JavaScript tag value is a string or `undefined`; it is a `JSVal`, that is an
  `Option String` with `none` for `undefined`.
* A plain JavaScript object used as a tag dictionary is a `Tags`: the list of its
  own properties in insertion order.  A property may be present and hold
  `undefined` (the patches built by `revert` are of that shape).  Reading a
  property takes the first entry with that key, so every list denotes an object.
* Strings are compared by code points.  For well formed strings this agrees with
  the code unit comparison that `===` and `indexOf(..) === 0` perform.
* The closure variables of `uiField` (`field`, `entity`, `_show`, `_state`,
  `_tags`, `context`, `options`) are the fields of `Controller`, together with the
  properties `impl` and `entityID` that `createField` attaches to `field`.
* The table `uiFields` of renderer factories is imported from `./fields`; it is a
  parameter `uiFields : Registry` of every operation that reads it.
* `render` is modelled by its effect on the controller; the DOM nodes it creates and
  the help and reference widgets are left out.
-/

namespace UiField

/-- A tag value: a string, or `undefined` (`none`). -/
abbrev JSVal := Option String

/-- ToBoolean on a tag value: `undefined` and the empty string are falsy. -/
def truthy : JSVal → Bool
  | some s => s != ""
  | none => false

/-- A plain object holding tags: its own properties, in insertion order. -/
abbrev Tags := List (String × JSVal)

/-- Property read `t[key]`: `undefined` when the object has no such property. -/
def Tags.get (t : Tags) (key : String) : JSVal :=
  match t.lookup key with
  | some v => v
  | none => none

/-- The property names a `for (var tagKey in t)` loop runs through. -/
def Tags.ownKeys (t : Tags) : List String :=
  t.map Prod.fst

/-- Property write `t[key] = v`: overwrites in place, or appends a new property. -/
def Tags.set : Tags → String → JSVal → Tags
  | [], key, v => [(key, v)]
  | (k, w) :: rest, key, v =>
    if k == key then (key, v) :: rest else (k, w) :: Tags.set rest key v

/-- Search of `sub` in `s` from the left; `pos` is the index of the head of `s`. -/
def indexOfFrom : List Char → List Char → Nat → Int
  | [], sub, pos => if sub.isPrefixOf [] then (pos : Int) else -1
  | c :: rest, sub, pos =>
    if sub.isPrefixOf (c :: rest) then (pos : Int) else indexOfFrom rest sub (pos + 1)

/-- The method `s.indexOf(sub)`: the first index at which `sub` occurs in `s`,
or `-1`. -/
def indexOf (s sub : String) : Int :=
  indexOfFrom s.data sub.data 0

/-- An entity of the graph: its identity and its tags. -/
structure Entity where
  id : String
  tags : Tags
  deriving DecidableEq

/-- The host context: `baseEntities id` is `context.graph().base().entities[id]`
(the baseline lookup), `hasEntity id` is `context.hasEntity(id)` (the latest
lookup).  Both answer `none` when the entity is not found. -/
structure Context where
  baseEntities : String → Option Entity
  hasEntity : String → Option Entity

/-- The object `field.prerequisiteTag`. -/
structure PrerequisiteTag where
  key : JSVal
  value : JSVal := none
  valueNot : JSVal := none
  deriving DecidableEq

/-- The controller's copy of the field definition, after
`field.keys = field.keys || [field.key]`. -/
structure Field where
  key : String
  keys : List String
  type : String
  default : JSVal := none
  prerequisiteTag : Option PrerequisiteTag := none
  deriving DecidableEq

/-- An options object: the names of its own properties with their boolean values,
in insertion order. -/
abbrev OptionsObj := List (String × Bool)

/-- Property read `o[name]` on an options object. -/
def OptionsObj.get (o : OptionsObj) (name : String) : Option Bool :=
  o.lookup name

/-- Property write `o[name] = v` on an options object. -/
def OptionsObj.set : OptionsObj → String → Bool → OptionsObj
  | [], name, v => [(name, v)]
  | (k, w) :: rest, name, v =>
    if k == name then (name, v) :: rest else (k, w) :: OptionsObj.set rest name v

/-- The call `Object.assign(target, source)`: every own property of `source` is
written to `target`, in order; an `undefined` source (`none`) is skipped. -/
def objectAssign (target : OptionsObj) (source : Option OptionsObj) : OptionsObj :=
  match source with
  | none => target
  | some src => src.foldl (fun t kv => OptionsObj.set t kv.1 kv.2) target

/-- The literal `{show: true, wrap: true, remove: true, revert: true, info: true}`. -/
def defaultOptions : OptionsObj :=
  [("show", true), ("wrap", true), ("remove", true), ("revert", true), ("info", true)]

/-- ToBoolean on an option value: `undefined` is falsy. -/
def optionTruthy : Option Bool → Bool
  | some b => b
  | none => false

/-- A type-specific renderer, as far as the controller deals with it: the type tag
whose factory built it, whether it has an `entity` method, the entity handed to that
method, the snapshot last pushed with `impl.tags(..)`, and the number of calls of
`impl.focus()`. -/
structure Renderer where
  type : String
  acceptsEntity : Bool := false
  entity : Option Entity := none
  tags : Option Tags := none
  focusCalls : Nat := 0
  deriving DecidableEq

/-- What is known of a factory `uiFields[type]`: whether the renderer it builds has
an `entity` method. -/
structure RendererFactory where
  acceptsEntity : Bool
  deriving DecidableEq

/-- The table `uiFields`: the factory registered for a type tag, if any. -/
abbrev Registry := String → Option RendererFactory

/-- An error thrown by the code. Calling `uiFields[field.type]` when the table has no
such entry is a `TypeError`; nothing catches it. -/
inductive JSError where
  | typeError
  deriving DecidableEq

/-- The field definition handed to `uiField`, as far as the controller reads it. The
primary key is a string; `keys` and `impl` may be absent. -/
structure PresetField where
  key : String
  keys : Option (List String) := none
  type : String
  default : JSVal := none
  prerequisiteTag : Option PrerequisiteTag := none
  impl : Option Renderer := none

/-- The closure state of one `uiField` controller. `impl` and `entityID` are the
properties of that name of `field`. `constructions` is not in the source: it counts
the calls of a renderer factory made so far on behalf of this controller. -/
structure Controller where
  context : Context
  field : Field
  entity : Option Entity
  _show : Bool := true
  _state : String := ""
  _tags : Tags := []
  options : OptionsObj := defaultOptions
  impl : Option Renderer := none
  entityID : Option String := none
  constructions : Nat := 0

/-- The setter `field.tags(val)`. -/
def Controller.setTags (c : Controller) (val : Tags) : Controller :=
  { c with _tags := val }

/-- The function `isModified` of `uiField`. -/
def isModified (c : Controller) : Bool :=
  match c.entity with
  | none => false
  | some entity =>
    let original := c.context.baseEntities entity.id
    c.field.keys.any fun key =>
      match original with
      | some o => Tags.get c._tags key != Tags.get o.tags key
      | none => truthy (Tags.get c._tags key)

/-- The function `isPresent` of `uiField`. -/
def isPresent (c : Controller) : Bool :=
  c.field.keys.any fun key =>
    if c.field.type == "multiCombo" then
      (Tags.ownKeys c._tags).any fun tagKey => indexOf tagKey key == 0
    else
      Tags.get c._tags key != none

/-- The method `field.isAllowed`. -/
def isAllowed (c : Controller) : Bool :=
  match c.entity with
  | none => true
  | some entity =>
    if isPresent c then true
    else
      match c.context.hasEntity entity.id with
      | none => true
      | some latest =>
        match c.field.prerequisiteTag with
        | none => true
        | some require =>
          match require.key with
          | none => true
          | some requireKey =>
            if requireKey != "" then
              let value := Tags.get latest.tags requireKey
              if !truthy value then false
              else if truthy require.valueNot then require.valueNot != value
              else if truthy require.value then require.value == value
              else true
            else true

/-- One call of the listeners of `change`: `dispatch.call('change', target, patch, onInput)`. -/
structure ChangeEvent where
  target : Field
  patch : Tags
  onInput : Option Bool
  deriving DecidableEq

/-- What a click handler did: the two calls on the DOM event, the value it
returned (`none` for `undefined`), and the change events it dispatched, in order. -/
structure ActionResult where
  propagationStopped : Bool
  defaultPrevented : Bool
  returned : Option Bool
  events : List ChangeEvent

/-- The function `revert` of `uiField`, a click handler called with the datum `d`. -/
def revert (c : Controller) (d : Field) : ActionResult :=
  match c.entity with
  | none =>
    { propagationStopped := true, defaultPrevented := true, returned := some false, events := [] }
  | some entity =>
    let original := c.context.baseEntities entity.id
    let t : Tags := d.keys.foldl
      (fun t key =>
        Tags.set t key (match original with
          | some o => Tags.get o.tags key
          | none => none))
      []
    { propagationStopped := true, defaultPrevented := true, returned := none,
      events := [{ target := d, patch := t, onInput := none }] }

/-- The function `remove` of `uiField`, a click handler called with the datum `d`. -/
def remove (_c : Controller) (d : Field) : ActionResult :=
  let t : Tags := d.keys.foldl (fun t key => Tags.set t key none) []
  { propagationStopped := true, defaultPrevented := true, returned := none,
    events := [{ target := d, patch := t, onInput := none }] }

/-- The function `createField` of `uiField`. The factory of the field's type is looked
up and called; without a factory the call throws and nothing is assigned. -/
def createField (uiFields : Registry) (c : Controller) : Except JSError Controller :=
  match uiFields c.field.type with
  | none => Except.error JSError.typeError
  | some factory =>
    let impl : Renderer := { type := c.field.type, acceptsEntity := factory.acceptsEntity }
    match c.entity with
    | some entity =>
      Except.ok { c with
        impl := some (if impl.acceptsEntity then { impl with entity := some entity } else impl),
        entityID := some entity.id,
        constructions := c.constructions + 1 }
    | none =>
      Except.ok { c with impl := some impl, constructions := c.constructions + 1 }

/-- The body of `uiField` up to `field.keys = field.keys || [field.key]`: the closure
state before any renderer is created. -/
def initialState (context : Context) (presetField : PresetField) (entity : Option Entity)
    (options : Option OptionsObj) : Controller :=
  let options := objectAssign defaultOptions options
  { context := context,
    field :=
      { key := presetField.key,
        keys := match presetField.keys with
          | some keys => keys
          | none => [presetField.key],
        type := presetField.type,
        default := presetField.default,
        prerequisiteTag := presetField.prerequisiteTag },
    entity := entity,
    _show := optionTruthy (options.get "show"),
    _state := "",
    _tags := [],
    options := options,
    impl := presetField.impl,
    entityID := none,
    constructions := 0 }

/-- The constructor `uiField(context, presetField, entity, options)`. It throws when
`createField` does. -/
def uiField (uiFields : Registry) (context : Context) (presetField : PresetField)
    (entity : Option Entity) (options : Option OptionsObj) : Except JSError Controller :=
  let c := initialState context presetField entity options
  if c._show && c.impl.isNone then createField uiFields c else Except.ok c

/-- What a method call did: the closure state it left, the error it threw if any, and
the change events it dispatched, in order. -/
structure CallResult where
  state : Controller
  error : Option JSError := none
  events : List ChangeEvent := []

/-- The method `field.show`. -/
def Controller.show (uiFields : Registry) (c : Controller) : CallResult :=
  let c1 : Controller := { c with _show := true }
  match (if c1.impl.isNone then createField uiFields c1 else Except.ok c1) with
  | Except.error err => { state := c1, error := some err }
  | Except.ok c2 =>
    if truthy c2.field.default && c2.field.key != "" &&
        Tags.get c2._tags c2.field.key != c2.field.default then
      { state := c2,
        events := [{ target := c2.field,
                     patch := Tags.set [] c2.field.key c2.field.default,
                     onInput := none }] }
    else
      { state := c2 }

/-- The method `field.isShown`. -/
def isShown (c : Controller) : Bool :=
  c._show || isPresent c

/-- The callback that `field.render` passes to `.each`, run for one container node:
the renderer is created if there is none, then handed the snapshot. -/
def renderEach (uiFields : Registry) (c : Controller) : Except JSError Controller :=
  match (if c.impl.isNone then createField uiFields c else Except.ok c) with
  | Except.error err => Except.error err
  | Except.ok c1 =>
    match c1.impl with
    | some impl => Except.ok { c1 with impl := some { impl with tags := some c1._tags } }
    | none => Except.error JSError.typeError

/-- The method `field.render(selection)` on a selection of `nodes` nodes: one
container per node, and the callback of `.each` once per container. -/
def render (uiFields : Registry) : Controller → Nat → CallResult
  | c, 0 => { state := c }
  | c, nodes + 1 =>
    match renderEach uiFields c with
    | Except.error err => { state := c, error := some err }
    | Except.ok c1 => render uiFields c1 nodes

/-- The method `field.focus`. -/
def focus (c : Controller) : Controller :=
  match c.impl with
  | some impl => { c with impl := some { impl with focusCalls := impl.focusCalls + 1 } }
  | none => c

/-- What an accessor returns: the stored value, or the controller itself. -/
inductive AccessorResult (α : Type) where
  | value (v : α)
  | self
  deriving DecidableEq

/-- The accessor `field.state`: `arg` is `none` when it is called without argument. -/
def stateAccessor (c : Controller) (arg : Option String) : Controller × AccessorResult String :=
  match arg with
  | none => (c, AccessorResult.value c._state)
  | some val => ({ c with _state := val }, AccessorResult.self)

/-- The accessor `field.tags`: `arg` is `none` when it is called without argument. -/
def tagsAccessor (c : Controller) (arg : Option Tags) : Controller × AccessorResult Tags :=
  match arg with
  | none => (c, AccessorResult.value c._tags)
  | some val => (c.setTags val, AccessorResult.self)

/-- The operations of a controller. -/
inductive Op where
  | «show»
  | render (nodes : Nat)
  | tags (arg : Option Tags)
  | state (arg : Option String)
  | focus
  | isShown
  | isAllowed
  | revert (d : Field)
  | remove (d : Field)
  deriving DecidableEq

/-- The closure state after one operation; an operation that throws leaves the state
it had reached. -/
def step (uiFields : Registry) (c : Controller) : Op → Controller
  | Op.show => (Controller.show uiFields c).state
  | Op.render nodes => (render uiFields c nodes).state
  | Op.tags arg => (tagsAccessor c arg).1
  | Op.state arg => (stateAccessor c arg).1
  | Op.focus => focus c
  | Op.isShown => c
  | Op.isAllowed => c
  | Op.revert _ => c
  | Op.remove _ => c

/-- The closure state after a sequence of operations. -/
def run (uiFields : Registry) (c : Controller) (ops : List Op) : Controller :=
  ops.foldl (step uiFields) c

/-- Whether an operation is one that needs the field to be visible. -/
def Op.needsRenderer : Op → Bool
  | Op.show => true
  | Op.render _ => true
  | _ => false

/-- The statement `delete t[key]`. -/
def Tags.remove (t : Tags) (key : String) : Tags :=
  t.filter fun kv => kv.1 != key

/-- A context in which no entity is found, neither as baseline nor as latest. -/
def emptyContext : Context :=
  { baseEntities := fun _ => none, hasEntity := fun _ => none }

/-- A context whose two lookups find `base` and `latest` under their own identities. -/
def contextOf (base latest : Option Entity) : Context :=
  { baseEntities := fun id =>
      match base with
      | some o => if o.id == id then some o else none
      | none => none
    hasEntity := fun id =>
      match latest with
      | some o => if o.id == id then some o else none
      | none => none }

/-- A multi-key field on the prefix `payment:`. -/
def paymentField : Field :=
  { key := "payment:", keys := ["payment:"], type := "multiCombo" }

/-- A controller of `paymentField` whose snapshot has the property `payment:cash`
holding `undefined`. -/
def paymentUndefined : Controller :=
  { context := emptyContext, field := paymentField, entity := none,
    _tags := [("payment:cash", none)] }

/-- A controller of `paymentField` whose snapshot is `payment:cash=yes`. -/
def paymentCash : Controller :=
  { context := emptyContext, field := paymentField, entity := none,
    _tags := [("payment:cash", some "yes")] }

/-- A combo field on `cycleway` that is offered only under the prerequisite `rule`. -/
def cyclewayField (rule : PrerequisiteTag) : Field :=
  { key := "cycleway", keys := ["cycleway"], type := "combo", prerequisiteTag := some rule }

/-- A controller of `cyclewayField rule`, not explicitly shown, bound to the way `w1`
whose latest copy has the tags `latestTags`; the snapshot is `snapshot` and the
baseline lookup does not find `w1`. -/
def cyclewayOn (rule : PrerequisiteTag) (latestTags snapshot : Tags) : Controller :=
  { context := contextOf none (some { id := "w1", tags := latestTags }),
    field := cyclewayField rule,
    entity := some { id := "w1", tags := latestTags },
    _show := false, _tags := snapshot }

/-- The rule `{key: 'oneway', valueNot: 'yes'}`. -/
def onewayNotYes : PrerequisiteTag :=
  { key := some "oneway", valueNot := some "yes" }

/-- The rule `{key: 'oneway', value: 'yes', valueNot: 'no'}`. -/
def onewayYesNotNo : PrerequisiteTag :=
  { key := some "oneway", value := some "yes", valueNot := some "no" }

/-- The rule `{key: 'oneway', value: 'yes'}`. -/
def onewayYes : PrerequisiteTag :=
  { key := some "oneway", value := some "yes" }

/-- A controller of `cyclewayField onewayNotYes` bound to the way `w1`, which neither
lookup finds; the snapshot is `oneway=yes`. -/
def cyclewayOrphan : Controller :=
  { cyclewayOn onewayNotYes [("oneway", some "yes")] [("oneway", some "yes")] with
    context := emptyContext }

/-- A table of factories for a few type tags; only the renderer of `restrictions` has
an `entity` method. Every other tag has no factory. -/
def demoRegistry : Registry := fun type =>
  if type == "restrictions" then some { acceptsEntity := true }
  else if type == "text" || type == "combo" || type == "check" || type == "multiCombo" then
    some { acceptsEntity := false }
  else none

/-- The definition of a check field on `lit` with the default `yes`. -/
def litPreset : PresetField :=
  { key := "lit", type := "check", default := some "yes" }

/-- The same definition under a type tag without factory. -/
def litPresetUnknownType : PresetField :=
  { litPreset with type := "unknown" }

/-- The definition of a text field on `name`, without a `keys` list. -/
def namePreset : PresetField :=
  { key := "name", type := "text" }

/-- The definition of a text field on `name` that supplies the empty `keys` list. -/
def namePresetNoKeys : PresetField :=
  { key := "name", keys := some [], type := "text" }

/-- A localized name field on the keys `name` and `name:en`. -/
def nameEnField : Field :=
  { key := "name", keys := ["name", "name:en"], type := "text" }

/-- The options record `{show: false}`. -/
def hiddenOptions : OptionsObj :=
  [("show", false)]

/-- The closure state of a controller of `litPreset` built with `{show: false}`. -/
def litHidden : Controller :=
  initialState emptyContext litPreset none (some hiddenOptions)

/-- The closure state of a controller of `litPresetUnknownType` built with
`{show: false}`. -/
def litUnknownHidden : Controller :=
  initialState emptyContext litPresetUnknownType none (some hiddenOptions)

/-! ## Lemmas on tag objects and on `indexOf` -/

theorem Tags.get_nil (key : String) : Tags.get [] key = none := rfl

theorem Tags.get_cons (k : String) (w : JSVal) (rest : Tags) (key : String) :
    Tags.get ((k, w) :: rest) key = if key = k then w else Tags.get rest key := by
  by_cases h : key = k
  · subst h
    simp [Tags.get, List.lookup]
  · have hb : (key == k) = false := by simpa using h
    simp [Tags.get, List.lookup, hb, h]

theorem Tags.set_cons_self (k : String) (w : JSVal) (rest : Tags) (v : JSVal) :
    Tags.set ((k, w) :: rest) k v = (k, v) :: rest := by
  simp [Tags.set]

theorem Tags.set_cons_ne (k : String) (w : JSVal) (rest : Tags) (key : String) (v : JSVal)
    (hk : k ≠ key) : Tags.set ((k, w) :: rest) key v = (k, w) :: Tags.set rest key v := by
  have hb : (k == key) = false := by simpa using hk
  simp [Tags.set, hb]

theorem Tags.get_set (t : Tags) (key : String) (v : JSVal) (key' : String) :
    Tags.get (Tags.set t key v) key' = if key' = key then v else Tags.get t key' := by
  induction t with
  | nil => simp [Tags.set, Tags.get_cons, Tags.get_nil]
  | cons kw rest ih =>
    obtain ⟨k, w⟩ := kw
    by_cases hk : k = key
    · subst hk
      rw [Tags.set_cons_self, Tags.get_cons, Tags.get_cons]
      by_cases h : key' = k <;> simp [h]
    · rw [Tags.set_cons_ne k w rest key v hk, Tags.get_cons, Tags.get_cons, ih]
      by_cases h1 : key' = k
      · have h2 : key' ≠ key := fun h => hk (h1.symm.trans h)
        simp [h1, hk]
      · simp [h1]

theorem Tags.mem_ownKeys_set (t : Tags) (key : String) (v : JSVal) (key' : String) :
    key' ∈ Tags.ownKeys (Tags.set t key v) ↔ key' = key ∨ key' ∈ Tags.ownKeys t := by
  induction t with
  | nil => simp [Tags.set, Tags.ownKeys]
  | cons kw rest ih =>
    obtain ⟨k, w⟩ := kw
    by_cases hk : k = key
    · subst hk
      rw [Tags.set_cons_self]
      simp [Tags.ownKeys]
    · have ih' : key' ∈ List.map Prod.fst (Tags.set rest key v) ↔
          key' = key ∨ key' ∈ List.map Prod.fst rest := ih
      rw [Tags.set_cons_ne k w rest key v hk]
      simp only [Tags.ownKeys, List.map_cons, List.mem_cons, ih']
      tauto

theorem Tags.get_ne_none_of_mem (t : Tags) (key : String)
    (hall : ∀ kv ∈ t, kv.2 ≠ none) (h : key ∈ Tags.ownKeys t) : Tags.get t key ≠ none := by
  induction t with
  | nil => simp [Tags.ownKeys] at h
  | cons kw rest ih =>
    obtain ⟨k, w⟩ := kw
    rw [Tags.get_cons]
    by_cases hk : key = k
    · rw [if_pos hk]
      exact hall (k, w) (List.mem_cons_self _ _)
    · rw [if_neg hk]
      simp only [Tags.ownKeys, List.map_cons, List.mem_cons] at h
      rcases h with h | h
      · exact absurd h hk
      · exact ih (fun kv hkv => hall kv (List.mem_cons_of_mem _ hkv)) h

theorem indexOfFrom_range (s sub : List Char) (pos : Nat) :
    indexOfFrom s sub pos = -1 ∨ (pos : Int) ≤ indexOfFrom s sub pos := by
  induction s generalizing pos with
  | nil =>
    unfold indexOfFrom
    split
    · exact Or.inr (le_refl _)
    · exact Or.inl rfl
  | cons c rest ih =>
    unfold indexOfFrom
    split
    · exact Or.inr (le_refl _)
    · rcases ih (pos + 1) with h | h
      · exact Or.inl h
      · right
        have : (pos : Int) ≤ ((pos + 1 : Nat) : Int) := by push_cast; omega
        exact le_trans this h

/-- The test `tagKey.indexOf(key) === 0` holds exactly when `key` is a prefix of `tagKey`. -/
theorem indexOf_eq_zero_iff (tagKey key : String) :
    indexOf tagKey key = 0 ↔ key.data <+: tagKey.data := by
  unfold indexOf
  cases htk : tagKey.data with
  | nil =>
    unfold indexOfFrom
    by_cases h : key.data.isPrefixOf [] = true
    · simp only [h, if_true]
      simpa using (List.isPrefixOf_iff_prefix.mp h)
    · simp only [h]
      constructor
      · intro h0
        simp at h0
      · intro hp
        exact absurd (List.isPrefixOf_iff_prefix.mpr hp) h
  | cons c rest =>
    unfold indexOfFrom
    by_cases h : key.data.isPrefixOf (c :: rest) = true
    · simp only [h, if_true]
      simpa using (List.isPrefixOf_iff_prefix.mp h)
    · simp only [h]
      constructor
      · intro h0
        simp only [Bool.false_eq_true, if_false] at h0
        rcases indexOfFrom_range rest key.data (0 + 1) with h1 | h1
        · rw [h0] at h1
          simp at h1
        · rw [h0] at h1
          simp at h1
      · intro hp
        exact absurd (List.isPrefixOf_iff_prefix.mpr hp) h

/-! ## The predicate engine: `isModified` and `isPresent` -/

/-- C4, as stated, fails: the snapshot has the property `payment:cash`, which starts
with the relevant key `payment:`, holding `undefined`; no property with that prefix
has a defined value, yet `isPresent()` is true. -/
theorem isPresent_multiCombo_counterexample :
    paymentUndefined.field.type = "multiCombo" ∧
      isPresent paymentUndefined = true ∧
      ¬ ∃ key ∈ paymentUndefined.field.keys, ∃ tagKey ∈ Tags.ownKeys paymentUndefined._tags,
          key.data <+: tagKey.data ∧ Tags.get paymentUndefined._tags tagKey ≠ none := by
  refine ⟨rfl, by decide, ?_⟩
  rintro ⟨key, _, tagKey, htag, _, hdef⟩
  have h1 : tagKey = "payment:cash" := by
    simpa [paymentUndefined, Tags.ownKeys] using htag
  subst h1
  exact hdef (by decide)

/-- C4, amended. For a field of type `multiCombo`, `isPresent()` is true exactly when
some property name of the snapshot starts with one of the relevant keys, whatever
value the property holds.  On snapshots none of whose properties holds `undefined`
this is: some property whose name starts with a relevant key has a defined value. -/
theorem isPresent_multiCombo_iff_startsWith (c : Controller) (val : Tags)
    (ht : c.field.type = "multiCombo") :
    (isPresent (c.setTags val) = true ↔
        ∃ key ∈ c.field.keys, ∃ tagKey ∈ Tags.ownKeys val, key.data <+: tagKey.data) ∧
      ((∀ kv ∈ val, kv.2 ≠ none) →
        (isPresent (c.setTags val) = true ↔
          ∃ key ∈ c.field.keys, ∃ tagKey ∈ Tags.ownKeys val,
            key.data <+: tagKey.data ∧ Tags.get val tagKey ≠ none)) := by
  have hiff : isPresent (c.setTags val) = true ↔
      ∃ key ∈ c.field.keys, ∃ tagKey ∈ Tags.ownKeys val, key.data <+: tagKey.data := by
    simp only [isPresent, Controller.setTags, ht, beq_self_eq_true, if_true,
      List.any_eq_true, beq_iff_eq, indexOf_eq_zero_iff]
  refine ⟨hiff, fun hall => hiff.trans ⟨?_, ?_⟩⟩
  · rintro ⟨key, hkey, tagKey, htag, hpre⟩
    exact ⟨key, hkey, tagKey, htag, hpre, Tags.get_ne_none_of_mem val tagKey hall htag⟩
  · rintro ⟨key, hkey, tagKey, htag, hpre, _⟩
    exact ⟨key, hkey, tagKey, htag, hpre⟩

/-- Witness of C4 amended: the field on `payment:` is present for `payment:cash=yes`. -/
theorem isPresent_multiCombo_iff_startsWith_witness :
    isPresent (paymentCash.setTags [("payment:cash", some "yes")]) = true :=
  (isPresent_multiCombo_iff_startsWith paymentCash [("payment:cash", some "yes")] rfl).1.mpr
    ⟨"payment:", by decide, "payment:cash", by decide, by decide⟩

/-! ## The prerequisite rule: `isAllowed` -/

/-- C6, as stated, fails: the rule `{key: 'oneway', value: 'yes', valueNot: 'no'}`
specifies the required value `yes`; the latest entity is tagged `oneway=-1`, which is
not the required value, yet `isAllowed()` is true, because the forbidden value is
tested first and decides alone. -/
theorem isAllowed_value_counterexample :
    isPresent (cyclewayOn onewayYesNotNo [("oneway", some "-1")] [("oneway", some "-1")]) = false ∧
      onewayYesNotNo.value = some "yes" ∧
      Tags.get [("oneway", some "-1")] "oneway" = some "-1" ∧
      isAllowed (cyclewayOn onewayYesNotNo [("oneway", some "-1")] [("oneway", some "-1")]) = true := by
  refine ⟨by decide, rfl, by decide, by decide⟩

/-- C6, amended. With a bound entity, the field not present, the latest entity found
and holding a value for the rule's non-empty key: whenever the rule specifies a
non-empty required value and no (or an empty) forbidden value, `isAllowed()` is true
exactly when the latest value equals the required value. -/
theorem isAllowed_value_iff (c : Controller) (e latest : Entity) (require : PrerequisiteTag)
    (key value v : String)
    (he : c.entity = some e) (hp : isPresent c = false)
    (hl : c.context.hasEntity e.id = some latest)
    (hr : c.field.prerequisiteTag = some require)
    (hk : require.key = some key) (hkne : key ≠ "")
    (hval : require.value = some value) (hvalne : value ≠ "")
    (hvn : truthy require.valueNot = false)
    (hv : Tags.get latest.tags key = some v) :
    isAllowed c = true ↔ v = value := by
  have hkb : (key != "") = true := by simpa using hkne
  have hvt : truthy (some value) = true := by simpa [truthy] using hvalne
  by_cases hve : v = ""
  · have hne' : ¬ "" = value := fun h => hvalne h.symm
    simp [isAllowed, he, hp, hl, hr, hk, hkb, hv, truthy, hve, hne']
  · have hvb : truthy (some v) = true := by simpa [truthy] using hve
    simp only [isAllowed, he, hp, hl, hr, hk, hkb, hv, hval, hvn, hvt, hvb]
    constructor
    · intro h
      have heq : value = v := by simpa using h
      exact heq.symm
    · intro h
      subst h
      simp

/-- Witness of C6 amended: under `{key: 'oneway', value: 'yes'}` the latest entity
tagged `oneway=yes` allows the field, tagged `oneway=no` does not. -/
theorem isAllowed_value_iff_witness :
    isAllowed (cyclewayOn onewayYes [("oneway", some "yes")] [("oneway", some "yes")]) = true ∧
      isAllowed (cyclewayOn onewayYes [("oneway", some "no")] [("oneway", some "no")]) = false :=
  ⟨(isAllowed_value_iff (cyclewayOn onewayYes [("oneway", some "yes")] [("oneway", some "yes")])
      { id := "w1", tags := [("oneway", some "yes")] } { id := "w1", tags := [("oneway", some "yes")] }
      onewayYes "oneway" "yes" "yes" rfl (by decide) (by decide) rfl rfl (by decide) rfl
      (by decide) (by decide) (by decide)).mpr rfl,
    by decide⟩

/-- C8. If no entity is bound, or if the field is present in the snapshot, then
`isAllowed()` is true, whatever the prerequisite rule and the latest entity. -/
theorem isAllowed_of_unbound_or_present (c : Controller)
    (h : c.entity = none ∨ isPresent c = true) : isAllowed c = true := by
  rcases h with h | h
  · simp [isAllowed, h]
  · cases he : c.entity with
    | none => simp [isAllowed, he]
    | some e => simp [isAllowed, he, h]

/-- Witness of C8: under `{key: 'oneway', valueNot: 'yes'}` and a latest entity tagged
`oneway=yes` the field is not allowed while absent, and allowed once the snapshot
holds `cycleway=lane`. -/
theorem isAllowed_of_unbound_or_present_witness :
    isAllowed (cyclewayOn onewayNotYes [("oneway", some "yes")] [("oneway", some "yes")]) = false ∧
      isAllowed (cyclewayOn onewayNotYes [("oneway", some "yes")]
        [("oneway", some "yes"), ("cycleway", some "lane")]) = true :=
  ⟨by decide,
    isAllowed_of_unbound_or_present
      (cyclewayOn onewayNotYes [("oneway", some "yes")]
        [("oneway", some "yes"), ("cycleway", some "lane")])
      (Or.inr (by decide))⟩

/-- C9. Missing entities are a defined state. With a bound entity: when the latest
lookup finds nothing `isAllowed()` returns true, whatever the rule and the snapshot;
when the baseline lookup finds nothing `isModified()` returns the boolean "some
relevant key has a truthy snapshot value". Both are total functions: no error. -/
theorem missing_entity_is_defined (c : Controller) (e : Entity) (he : c.entity = some e) :
    (c.context.hasEntity e.id = none → isAllowed c = true) ∧
      (c.context.baseEntities e.id = none →
        ∃ b : Bool, isModified c = b ∧
          b = c.field.keys.any (fun key => truthy (Tags.get c._tags key))) := by
  constructor
  · intro hl
    cases hp : isPresent c <;> simp [isAllowed, he, hp, hl]
  · intro ho
    exact ⟨_, rfl, by simp [isModified, he, ho]⟩

/-- Witness of C9: the way `w1` found by neither lookup, under a rule that forbids
`oneway=yes`: the field is allowed, and `isModified()` answers true. -/
theorem missing_entity_is_defined_witness :
    isAllowed cyclewayOrphan = true ∧
      ∃ b : Bool, isModified cyclewayOrphan = b ∧
        b = cyclewayOrphan.field.keys.any (fun key => truthy (Tags.get cyclewayOrphan._tags key)) :=
  ⟨(missing_entity_is_defined cyclewayOrphan
      { id := "w1", tags := [("oneway", some "yes")] } rfl).1 rfl,
    (missing_entity_is_defined cyclewayOrphan
      { id := "w1", tags := [("oneway", some "yes")] } rfl).2 rfl⟩

/-! ## The mutation actions -/

/-- Reading a key of the object built by assigning `f key` to every `key` of `keys`,
starting from `init`. -/
theorem Tags.get_foldl_set (f : String → JSVal) (keys : List String) (init : Tags)
    (key : String) :
    Tags.get (keys.foldl (fun t k => Tags.set t k (f k)) init) key =
      if key ∈ keys then f key else Tags.get init key := by
  induction keys generalizing init with
  | nil => simp
  | cons k ks ih =>
    rw [List.foldl_cons, ih, Tags.get_set]
    by_cases h1 : key ∈ ks
    · simp [h1]
    · by_cases h2 : key = k
      · subst h2
        simp [h1]
      · simp [h1, h2]

theorem Tags.mem_ownKeys_foldl_set (f : String → JSVal) (keys : List String) (init : Tags)
    (key : String) :
    key ∈ Tags.ownKeys (keys.foldl (fun t k => Tags.set t k (f k)) init) ↔
      key ∈ keys ∨ key ∈ Tags.ownKeys init := by
  induction keys generalizing init with
  | nil => simp
  | cons k ks ih =>
    rw [List.foldl_cons, ih, Tags.mem_ownKeys_set, List.mem_cons]
    tauto

theorem Tags.nodup_ownKeys_set (t : Tags) (key : String) (v : JSVal)
    (h : (Tags.ownKeys t).Nodup) : (Tags.ownKeys (Tags.set t key v)).Nodup := by
  induction t with
  | nil => simp [Tags.set, Tags.ownKeys]
  | cons kw rest ih =>
    obtain ⟨k, w⟩ := kw
    have h' : k ∉ Tags.ownKeys rest ∧ (Tags.ownKeys rest).Nodup := by
      simpa [Tags.ownKeys] using h
    by_cases hk : k = key
    · subst hk
      rw [Tags.set_cons_self]
      simpa [Tags.ownKeys] using h
    · rw [Tags.set_cons_ne k w rest key v hk]
      have hmem : k ∉ Tags.ownKeys (Tags.set rest key v) := by
        rw [Tags.mem_ownKeys_set]
        rintro (h1 | h1)
        · exact hk h1
        · exact h'.1 h1
      have hnd : (Tags.ownKeys (Tags.set rest key v)).Nodup := ih h'.2
      exact List.nodup_cons.mpr ⟨hmem, hnd⟩

theorem Tags.nodup_ownKeys_foldl_set (f : String → JSVal) (keys : List String) (init : Tags)
    (h : (Tags.ownKeys init).Nodup) :
    (Tags.ownKeys (keys.foldl (fun t k => Tags.set t k (f k)) init)).Nodup := by
  induction keys generalizing init with
  | nil => simpa using h
  | cons k ks ih =>
    rw [List.foldl_cons]
    exact ih _ (Tags.nodup_ownKeys_set init k (f k) h)

theorem Tags.values_none_set (t : Tags) (key : String)
    (h : ∀ kv ∈ t, kv.2 = none) : ∀ kv ∈ Tags.set t key none, kv.2 = none := by
  induction t with
  | nil =>
    intro kv hkv
    simp only [Tags.set, List.mem_singleton] at hkv
    rw [hkv]
  | cons kw rest ih =>
    obtain ⟨k, w⟩ := kw
    intro kv hkv
    by_cases hk : k = key
    · subst hk
      rw [Tags.set_cons_self] at hkv
      rcases List.mem_cons.mp hkv with h1 | h1
      · rw [h1]
      · exact h kv (List.mem_cons_of_mem _ h1)
    · rw [Tags.set_cons_ne k w rest key none hk] at hkv
      rcases List.mem_cons.mp hkv with h1 | h1
      · rw [h1]
        exact h (k, w) (List.mem_cons_self _ _)
      · exact ih (fun kv' hkv' => h kv' (List.mem_cons_of_mem _ hkv')) kv h1

theorem Tags.values_none_foldl_set (keys : List String) (init : Tags)
    (h : ∀ kv ∈ init, kv.2 = none) :
    ∀ kv ∈ keys.foldl (fun t k => Tags.set t k none) init, kv.2 = none := by
  induction keys generalizing init with
  | nil => simpa using h
  | cons k ks ih =>
    rw [List.foldl_cons]
    exact ih _ (Tags.values_none_set init k h)

/-- C11. `remove(d)` dispatches exactly one change event, on `d`; its patch is an
object whose property names are exactly the keys of `d.keys`, each once, and every
property holds `undefined`. The event depends neither on the snapshot nor on the bound
entity: every controller dispatches the same one. With keys `[name, name:en]` the patch
is `{name: undefined, 'name:en': undefined}`. -/
theorem remove_emits_unset_patch (c : Controller) (d : Field) :
    (∃ patch : Tags,
      (remove c d).events = [{ target := d, patch := patch, onInput := none }] ∧
      (∀ key, key ∈ Tags.ownKeys patch ↔ key ∈ d.keys) ∧
      (Tags.ownKeys patch).Nodup ∧
      (∀ kv ∈ patch, kv.2 = none) ∧
      (∀ key, Tags.get patch key = none)) ∧
    (∀ c' : Controller, (remove c' d).events = (remove c d).events) ∧
    (remove c nameEnField).events =
      [{ target := nameEnField, patch := [("name", none), ("name:en", none)],
         onInput := none }] := by
  refine ⟨⟨d.keys.foldl (fun t k => Tags.set t k ((fun _ => none) k)) [], rfl, ?_, ?_, ?_, ?_⟩,
    fun _ => rfl, rfl⟩
  · intro key
    rw [Tags.mem_ownKeys_foldl_set]
    simp [Tags.ownKeys]
  · exact Tags.nodup_ownKeys_foldl_set _ _ _ (by simp [Tags.ownKeys])
  · exact Tags.values_none_foldl_set d.keys [] (by simp)
  · intro key
    rw [Tags.get_foldl_set]
    split <;> rfl

/-! ## Lazy creation of the renderer -/

/-- What a successful `createField` changes: the renderer handle, the recorded entity
identity and the count of constructions, nothing else. -/
theorem createField_ok (uiFields : Registry) (c c' : Controller)
    (h : createField uiFields c = Except.ok c') :
    c'.context = c.context ∧ c'.field = c.field ∧ c'.entity = c.entity ∧
      c'._show = c._show ∧ c'._state = c._state ∧ c'._tags = c._tags ∧
      c'.options = c.options ∧ c'.impl ≠ none ∧ c'.constructions = c.constructions + 1 := by
  unfold createField at h
  cases hreg : uiFields c.field.type with
  | none => simp [hreg] at h
  | some factory =>
    cases hent : c.entity with
    | none =>
      simp only [hreg, hent] at h
      cases h
      simp [hent]
    | some entity =>
      simp only [hreg, hent] at h
      cases h
      simp [hent]

theorem createField_error (uiFields : Registry) (c : Controller)
    (h : uiFields c.field.type = none) :
    createField uiFields c = Except.error JSError.typeError := by
  simp [createField, h]

theorem createField_registered (uiFields : Registry) (c : Controller)
    (h : uiFields c.field.type ≠ none) : ∃ c', createField uiFields c = Except.ok c' := by
  cases hreg : uiFields c.field.type with
  | none => exact absurd hreg h
  | some factory =>
    cases hent : c.entity with
    | none =>
      simp only [createField, hreg, hent]
      exact ⟨_, rfl⟩
    | some entity =>
      simp only [createField, hreg, hent]
      exact ⟨_, rfl⟩

/-- The three outcomes of the guarded call `if (!field.impl) createField()`: a renderer
exists and nothing happens; there is none and no factory, and the call throws; there
is none and the factory builds one. -/
theorem guarded_createField (uiFields : Registry) (c : Controller) :
    (c.impl ≠ none ∧
      (if c.impl.isNone then createField uiFields c else Except.ok c) = Except.ok c) ∨
    (c.impl = none ∧ uiFields c.field.type = none ∧
      (if c.impl.isNone then createField uiFields c else Except.ok c) =
        Except.error JSError.typeError) ∨
    (c.impl = none ∧ uiFields c.field.type ≠ none ∧ ∃ c2,
      (if c.impl.isNone then createField uiFields c else Except.ok c) = Except.ok c2 ∧
      createField uiFields c = Except.ok c2) := by
  cases himpl : c.impl with
  | some r =>
    left
    exact ⟨by simp, by simp⟩
  | none =>
    right
    cases hreg : uiFields c.field.type with
    | none =>
      left
      refine ⟨rfl, rfl, ?_⟩
      simp [createField_error uiFields c hreg]
    | some factory =>
      right
      have hne : uiFields c.field.type ≠ none := by simp [hreg]
      obtain ⟨c2, hc2⟩ := createField_registered uiFields c hne
      exact ⟨rfl, by simp, c2, by simp [hc2], hc2⟩

/-- The test of `field.show` that decides whether a change event is dispatched. -/
theorem show_test_iff (f : Field) (t : Tags) :
    (truthy f.default && f.key != "" && Tags.get t f.key != f.default) = true ↔
      (∃ d : String, f.default = some d ∧ d ≠ "") ∧ f.key ≠ "" ∧
        Tags.get t f.key ≠ f.default := by
  have htruthy : truthy f.default = true ↔ ∃ d : String, f.default = some d ∧ d ≠ "" := by
    cases f.default with
    | none => simp [truthy]
    | some s => simp [truthy]
  simp only [Bool.and_eq_true, htruthy, bne_iff_ne, ne_eq, and_assoc]

theorem show_unfold (uiFields : Registry) (c : Controller) :
    Controller.show uiFields c =
      match (if ({ c with _show := true } : Controller).impl.isNone then
          createField uiFields { c with _show := true }
        else Except.ok { c with _show := true }) with
      | Except.error err => { state := { c with _show := true }, error := some err }
      | Except.ok c2 =>
        if truthy c2.field.default && c2.field.key != "" &&
            Tags.get c2._tags c2.field.key != c2.field.default then
          { state := c2,
            events := [{ target := c2.field,
                         patch := Tags.set [] c2.field.key c2.field.default,
                         onInput := none }] }
        else
          { state := c2 } := rfl

/-- What `field.show` leaves of the closure state: `_show` is true, and the field
definition, the entity, the snapshot, the display state and the options are as before. -/
theorem show_state (uiFields : Registry) (c : Controller) :
    (Controller.show uiFields c).state._show = true ∧
      (Controller.show uiFields c).state.field = c.field ∧
      (Controller.show uiFields c).state._tags = c._tags ∧
      (Controller.show uiFields c).state._state = c._state ∧
      (Controller.show uiFields c).state.entity = c.entity ∧
      (Controller.show uiFields c).state.options = c.options := by
  rcases guarded_createField uiFields { c with _show := true } with
    ⟨_, h2⟩ | ⟨_, _, h3⟩ | ⟨_, _, c2, h3, h4⟩
  · rw [show_unfold, h2]
    dsimp only
    split <;> exact ⟨rfl, rfl, rfl, rfl, rfl, rfl⟩
  · rw [show_unfold, h3]
    exact ⟨rfl, rfl, rfl, rfl, rfl, rfl⟩
  · have hs := createField_ok uiFields _ c2 h4
    rw [show_unfold, h3]
    dsimp only
    split <;> exact ⟨hs.2.2.2.1, hs.2.1, hs.2.2.2.2.2.1, hs.2.2.2.2.1, hs.2.2.1,
      hs.2.2.2.2.2.2.1⟩

/-- What `field.show` does to the renderer, in the three cases of the guard. -/
theorem show_renderer (uiFields : Registry) (c : Controller) :
    (c.impl ≠ none →
      (Controller.show uiFields c).error = none ∧
      (Controller.show uiFields c).state.impl = c.impl ∧
      (Controller.show uiFields c).state.constructions = c.constructions) ∧
    (c.impl = none → uiFields c.field.type = none →
      (Controller.show uiFields c).error = some JSError.typeError ∧
      (Controller.show uiFields c).events = [] ∧
      (Controller.show uiFields c).state.impl = none ∧
      (Controller.show uiFields c).state.constructions = c.constructions) ∧
    (c.impl = none → uiFields c.field.type ≠ none →
      (Controller.show uiFields c).error = none ∧
      (Controller.show uiFields c).state.impl ≠ none ∧
      (Controller.show uiFields c).state.constructions = c.constructions + 1) := by
  rcases guarded_createField uiFields { c with _show := true } with
    ⟨h1, h2⟩ | ⟨h1, hreg, h3⟩ | ⟨h1, hreg, c2, h3, h4⟩
  · have h1' : c.impl ≠ none := h1
    refine ⟨fun _ => ?_, fun h => absurd h h1', fun h => absurd h h1'⟩
    rw [show_unfold, h2]
    dsimp only
    split <;> exact ⟨rfl, rfl, rfl⟩
  · have h1' : c.impl = none := h1
    have hreg' : uiFields c.field.type = none := hreg
    refine ⟨fun h => absurd h1' h, fun _ _ => ?_, fun _ h => absurd hreg' h⟩
    rw [show_unfold, h3]
    exact ⟨rfl, rfl, h1', rfl⟩
  · have h1' : c.impl = none := h1
    have hreg' : uiFields c.field.type ≠ none := hreg
    have hs := createField_ok uiFields _ c2 h4
    refine ⟨fun h => absurd h1' h, fun _ h => absurd h hreg', fun _ _ => ?_⟩
    rw [show_unfold, h3]
    dsimp only
    split <;> exact ⟨rfl, hs.2.2.2.2.2.2.2.1, hs.2.2.2.2.2.2.2.2⟩

/-- The events `field.show` dispatches when it does not throw. -/
theorem show_events (uiFields : Registry) (c : Controller)
    (hr : c.impl ≠ none ∨ uiFields c.field.type ≠ none) :
    (Controller.show uiFields c).events =
      if (truthy c.field.default && c.field.key != "" &&
          Tags.get c._tags c.field.key != c.field.default) = true then
        [{ target := c.field, patch := Tags.set [] c.field.key c.field.default,
           onInput := none }]
      else [] := by
  rcases guarded_createField uiFields { c with _show := true } with
    ⟨_, h2⟩ | ⟨h1, hreg, _⟩ | ⟨_, _, c2, h3, h4⟩
  · rw [show_unfold, h2]
    dsimp only
    split <;> rfl
  · rcases hr with h | h
    · exact absurd h1 h
    · exact absurd hreg h
  · have hs := createField_ok uiFields _ c2 h4
    have hf : c2.field = c.field := hs.2.1
    have ht : c2._tags = c._tags := hs.2.2.2.2.2.1
    rw [show_unfold, h3]
    dsimp only
    rw [hf, ht]
    split <;> rfl

/-- What one run of the callback of `.each` changes when it completes: the renderer
handle and, when it had to build the renderer, the count of constructions. -/
theorem renderEach_ok (uiFields : Registry) (c c' : Controller)
    (h : renderEach uiFields c = Except.ok c') :
    (c'._show = c._show ∧ c'.field = c.field ∧ c'._tags = c._tags ∧
      c'._state = c._state ∧ c'.entity = c.entity ∧ c'.options = c.options) ∧
    c'.impl ≠ none ∧
    (c.impl ≠ none → c'.constructions = c.constructions) ∧
    (c.impl = none → c'.constructions = c.constructions + 1 ∧ uiFields c.field.type ≠ none) := by
  unfold renderEach at h
  rcases guarded_createField uiFields c with ⟨h1, h2⟩ | ⟨_, _, h3⟩ | ⟨h1, hreg, c2, h3, h4⟩
  · rw [h2] at h
    cases himpl : c.impl with
    | none => exact absurd himpl h1
    | some r =>
      simp only [himpl] at h
      cases h
      exact ⟨⟨rfl, rfl, rfl, rfl, rfl, rfl⟩, by simp, fun _ => rfl, fun hn => by simp at hn⟩
  · rw [h3] at h
    simp at h
  · have hs := createField_ok uiFields c c2 h4
    rw [h3] at h
    cases himpl : c2.impl with
    | none => exact absurd himpl hs.2.2.2.2.2.2.2.1
    | some r =>
      simp only [himpl] at h
      cases h
      exact ⟨⟨hs.2.2.2.1, hs.2.1, hs.2.2.2.2.2.1, hs.2.2.2.2.1, hs.2.2.1, hs.2.2.2.2.2.2.1⟩,
        by simp, fun hn => absurd h1 hn, fun _ => ⟨hs.2.2.2.2.2.2.2.2, hreg⟩⟩

theorem renderEach_error (uiFields : Registry) (c : Controller)
    (himpl : c.impl = none) (hreg : uiFields c.field.type = none) :
    renderEach uiFields c = Except.error JSError.typeError := by
  unfold renderEach
  rcases guarded_createField uiFields c with ⟨h1, _⟩ | ⟨_, _, h3⟩ | ⟨_, h2, _⟩
  · exact absurd himpl h1
  · rw [h3]
  · exact absurd hreg h2

theorem renderEach_total (uiFields : Registry) (c : Controller)
    (hr : c.impl ≠ none ∨ uiFields c.field.type ≠ none) :
    ∃ c', renderEach uiFields c = Except.ok c' := by
  unfold renderEach
  rcases guarded_createField uiFields c with ⟨h1, h2⟩ | ⟨h1, hreg, _⟩ | ⟨_, _, c2, h3, h4⟩
  · rw [h2]
    cases himpl : c.impl with
    | none => exact absurd himpl h1
    | some r =>
      simp only [himpl]
      exact ⟨_, rfl⟩
  · rcases hr with h | h
    · exact absurd h1 h
    · exact absurd hreg h
  · have hs := createField_ok uiFields c c2 h4
    rw [h3]
    cases himpl : c2.impl with
    | none => exact absurd himpl hs.2.2.2.2.2.2.2.1
    | some r =>
      simp only [himpl]
      exact ⟨_, rfl⟩

/-- What `field.render` leaves of the closure state, whether it throws or not. -/
theorem render_state (uiFields : Registry) (c : Controller) (nodes : Nat) :
    (render uiFields c nodes).state._show = c._show ∧
      (render uiFields c nodes).state.field = c.field ∧
      (render uiFields c nodes).state._tags = c._tags ∧
      (render uiFields c nodes).state._state = c._state ∧
      (render uiFields c nodes).state.entity = c.entity ∧
      (render uiFields c nodes).state.options = c.options := by
  induction nodes generalizing c with
  | zero => exact ⟨rfl, rfl, rfl, rfl, rfl, rfl⟩
  | succ n ih =>
    unfold render
    cases h : renderEach uiFields c with
    | error err => exact ⟨rfl, rfl, rfl, rfl, rfl, rfl⟩
    | ok c1 =>
      obtain ⟨⟨h1, h2, h3, h4, h5, h6⟩, _⟩ := renderEach_ok uiFields c c1 h
      obtain ⟨i1, i2, i3, i4, i5, i6⟩ := ih c1
      exact ⟨i1.trans h1, i2.trans h2, i3.trans h3, i4.trans h4, i5.trans h5, i6.trans h6⟩

/-- A render that finds a renderer builds none and completes. -/
theorem render_with_renderer (uiFields : Registry) (c : Controller) (nodes : Nat)
    (himpl : c.impl ≠ none) :
    (render uiFields c nodes).error = none ∧
      (render uiFields c nodes).state.impl ≠ none ∧
      (render uiFields c nodes).state.constructions = c.constructions := by
  induction nodes generalizing c with
  | zero => exact ⟨rfl, himpl, rfl⟩
  | succ n ih =>
    obtain ⟨c1, h⟩ := renderEach_total uiFields c (Or.inl himpl)
    obtain ⟨_, g1, g2, _⟩ := renderEach_ok uiFields c c1 h
    unfold render
    rw [h]
    obtain ⟨i1, i2, i3⟩ := ih c1 g1
    exact ⟨i1, i2, i3.trans (g2 himpl)⟩

/-- A render on at least one node without renderer: either there is no factory and it
throws, building nothing, or it builds the renderer, once, and completes. -/
theorem render_without_renderer (uiFields : Registry) (c : Controller) (nodes : Nat)
    (himpl : c.impl = none) (hn : 0 < nodes) :
    (uiFields c.field.type = none →
      (render uiFields c nodes).error = some JSError.typeError ∧
      (render uiFields c nodes).state.impl = none ∧
      (render uiFields c nodes).state.constructions = c.constructions) ∧
    (uiFields c.field.type ≠ none →
      (render uiFields c nodes).error = none ∧
      (render uiFields c nodes).state.impl ≠ none ∧
      (render uiFields c nodes).state.constructions = c.constructions + 1) := by
  obtain ⟨n, rfl⟩ : ∃ n, nodes = n + 1 := ⟨nodes - 1, by omega⟩
  constructor
  · intro hreg
    unfold render
    rw [renderEach_error uiFields c himpl hreg]
    exact ⟨rfl, himpl, rfl⟩
  · intro hreg
    obtain ⟨c1, h⟩ := renderEach_total uiFields c (Or.inr hreg)
    obtain ⟨_, g1, _, g3⟩ := renderEach_ok uiFields c c1 h
    unfold render
    rw [h]
    obtain ⟨i1, i2, i3⟩ := render_with_renderer uiFields c1 n g1
    exact ⟨i1, i2, i3.trans (g3 himpl).1⟩

/-! ## Construction -/

/-- What the constructor returns when it returns: the initial closure state, with at
most the renderer added. -/
theorem uiField_ok (uiFields : Registry) (context : Context) (presetField : PresetField)
    (entity : Option Entity) (options : Option OptionsObj) (c0 : Controller)
    (h0 : uiField uiFields context presetField entity options = Except.ok c0) :
    (c0._show = optionTruthy ((objectAssign defaultOptions options).get "show") ∧
      c0.field = (initialState context presetField entity options).field ∧
      c0._tags = [] ∧ c0._state = "" ∧
      c0.options = objectAssign defaultOptions options) ∧
    c0.constructions ≤ 1 ∧
    (c0.impl = none → c0.constructions = 0) ∧
    (c0._show = false → c0.constructions = 0) := by
  unfold uiField at h0
  by_cases hg : ((initialState context presetField entity options)._show &&
      (initialState context presetField entity options).impl.isNone) = true
  · simp only [hg, if_true] at h0
    have hs := createField_ok uiFields _ c0 h0
    have hshow : (initialState context presetField entity options)._show = true := by
      simp only [Bool.and_eq_true] at hg
      exact hg.1
    refine ⟨⟨hs.2.2.2.1, hs.2.1, hs.2.2.2.2.2.1, hs.2.2.2.2.1, hs.2.2.2.2.2.2.1⟩, ?_, ?_, ?_⟩
    · rw [hs.2.2.2.2.2.2.2.2]
      exact le_refl _
    · intro hn
      exact absurd hn hs.2.2.2.2.2.2.2.1
    · intro hf
      rw [hs.2.2.2.1, hshow] at hf
      exact absurd hf (by simp)
  · simp only [hg] at h0
    cases h0
    exact ⟨⟨rfl, rfl, rfl, rfl, rfl⟩, Nat.zero_le _, fun _ => rfl, fun _ => rfl⟩

/-- The constructor returns a controller when it has no renderer to build, or when the
field's type has a factory. -/
theorem uiField_total (uiFields : Registry) (context : Context) (presetField : PresetField)
    (entity : Option Entity) (options : Option OptionsObj)
    (h : optionTruthy ((objectAssign defaultOptions options).get "show") = false ∨
      presetField.impl ≠ none ∨ uiFields presetField.type ≠ none) :
    ∃ c0, uiField uiFields context presetField entity options = Except.ok c0 := by
  unfold uiField
  by_cases hg : ((initialState context presetField entity options)._show &&
      (initialState context presetField entity options).impl.isNone) = true
  · simp only [hg, if_true]
    simp only [Bool.and_eq_true] at hg
    have hshow : optionTruthy ((objectAssign defaultOptions options).get "show") = true := hg.1
    have himpl : presetField.impl = none := by
      have := hg.2
      simpa [initialState] using this
    rcases h with h | h | h
    · rw [hshow] at h
      exact absurd h (by simp)
    · exact absurd himpl h
    · exact createField_registered uiFields _ h
  · simp only [hg]
    exact ⟨_, rfl⟩

/-! ## `show` and `isShown` -/

/-- C12, as stated, fails: the field declares the default `yes` and the key `lit`, the
snapshot lacks `lit`, but the field's type has no renderer factory and no renderer
exists yet: `show()` throws before it dispatches anything. -/
theorem show_default_counterexample :
    (∃ d : String, litUnknownHidden.field.default = some d ∧ d ≠ "") ∧
      litUnknownHidden.field.key ≠ "" ∧
      Tags.get litUnknownHidden._tags litUnknownHidden.field.key ≠
        litUnknownHidden.field.default ∧
      (Controller.show demoRegistry litUnknownHidden).events = [] ∧
      (Controller.show demoRegistry litUnknownHidden).error = some JSError.typeError := by
  refine ⟨⟨"yes", rfl, by decide⟩, by decide, by decide, by decide, by decide⟩

/-- C12, amended. For a controller whose renderer exists or whose type has a renderer
factory, `show()` completes, and it dispatches a change event exactly when the field
declares a non-empty default value and a primary key and the snapshot's value for the
primary key differs from the default; when it dispatches, it dispatches one event, on
the field, whose patch is exactly `{primary key: default}`. -/
theorem show_emits_default_iff (uiFields : Registry) (c : Controller)
    (hr : c.impl ≠ none ∨ uiFields c.field.type ≠ none) :
    (Controller.show uiFields c).error = none ∧
      ((Controller.show uiFields c).events ≠ [] ↔
        (∃ d : String, c.field.default = some d ∧ d ≠ "") ∧ c.field.key ≠ "" ∧
          Tags.get c._tags c.field.key ≠ c.field.default) ∧
      ((Controller.show uiFields c).events ≠ [] →
        (Controller.show uiFields c).events =
          [{ target := c.field, patch := [(c.field.key, c.field.default)],
             onInput := none }]) := by
  have herr : (Controller.show uiFields c).error = none := by
    cases himpl : c.impl with
    | some r => exact ((show_renderer uiFields c).1 (by simp [himpl])).1
    | none =>
      rcases hr with h | h
      · exact absurd himpl h
      · exact ((show_renderer uiFields c).2.2 himpl h).1
  have hev := show_events uiFields c hr
  rw [hev]
  refine ⟨herr, ?_, ?_⟩
  · rw [← show_test_iff]
    split <;> simp_all
  · intro hne
    split
    · rfl
    · rename_i hc
      simp [hc] at hne

/-- Witness of C12 amended: with default `yes`, key `lit` and a registered type, a
first `show()` on a snapshot lacking `lit` dispatches `{lit: 'yes'}` once, and a
further `show()` on the snapshot `lit=yes` dispatches nothing. -/
theorem show_emits_default_iff_witness :
    (Controller.show demoRegistry litHidden).events =
        [{ target := litHidden.field, patch := [("lit", some "yes")], onInput := none }] ∧
      (Controller.show demoRegistry
        ((Controller.show demoRegistry litHidden).state.setTags [("lit", some "yes")])).events
        = [] :=
  ⟨(show_emits_default_iff demoRegistry litHidden (Or.inr (by decide))).2.2
      (by decide),
    by decide⟩

/-- One operation leaves `_show` as it was, except `show()`, which sets it. -/
theorem step_show_flag (uiFields : Registry) (c : Controller) (op : Op) :
    (step uiFields c op)._show = true ↔ c._show = true ∨ op = Op.show := by
  cases op with
  | «show» =>
    simp only [step, (show_state uiFields c).1, or_true]
  | render nodes =>
    simp only [step, (render_state uiFields c nodes).1]
    simp
  | tags arg =>
    cases arg <;> simp [step, tagsAccessor, Controller.setTags]
  | state arg =>
    cases arg <;> simp [step, stateAccessor]
  | focus =>
    cases himpl : c.impl <;> simp [step, focus, himpl]
  | isShown => simp [step]
  | isAllowed => simp [step]
  | revert d => simp [step]
  | remove d => simp [step]

theorem run_show_flag (uiFields : Registry) (c : Controller) (ops : List Op) :
    (run uiFields c ops)._show = true ↔ c._show = true ∨ Op.show ∈ ops := by
  induction ops generalizing c with
  | nil => simp [run]
  | cons op rest ih =>
    have hrun : run uiFields c (op :: rest) = run uiFields (step uiFields c op) rest := rfl
    rw [hrun, ih, step_show_flag, List.mem_cons]
    constructor
    · rintro ((h | h) | h)
      · exact Or.inl h
      · exact Or.inr (Or.inl h.symm)
      · exact Or.inr (Or.inr h)
    · rintro (h | h | h)
      · exact Or.inl (Or.inl h)
      · exact Or.inl (Or.inr h.symm)
      · exact Or.inr h

/-- C13. After construction and any sequence of operations, `isShown()` is true exactly
when the field is explicitly shown, that is the `show` option was true at construction
or `show()` is among the operations, or `isPresent()` is true on the state reached. In
particular, on every closure state, `isPresent()` true gives `isShown()` true. -/
theorem isShown_iff_shown_or_present (uiFields : Registry) (context : Context)
    (presetField : PresetField) (entity : Option Entity) (options : Option OptionsObj)
    (c0 : Controller)
    (h0 : uiField uiFields context presetField entity options = Except.ok c0)
    (ops : List Op) :
    (isShown (run uiFields c0 ops) = true ↔
        (optionTruthy ((objectAssign defaultOptions options).get "show") = true ∨
          Op.show ∈ ops) ∨
        isPresent (run uiFields c0 ops) = true) ∧
      (∀ c : Controller, isPresent c = true → isShown c = true) ∧
      (∀ c : Controller, isShown c = true ↔ c._show = true ∨ isPresent c = true) := by
  have hgen : ∀ c : Controller, isShown c = true ↔ c._show = true ∨ isPresent c = true := by
    intro c
    simp [isShown]
  have hshow := (uiField_ok uiFields context presetField entity options c0 h0).1.1
  refine ⟨?_, fun c hp => (hgen c).mpr (Or.inr hp), hgen⟩
  rw [hgen, run_show_flag, hshow]

/-- Witness of C13: a controller built with `{show: false}` is not shown on an empty
snapshot, is shown after `show()`, and is shown once the snapshot holds its key. -/
theorem isShown_iff_shown_or_present_witness :
    isShown (run demoRegistry litHidden []) = false ∧
      isShown (run demoRegistry litHidden [Op.show]) = true ∧
      isShown (run demoRegistry litHidden [Op.tags (some [("lit", some "no")])]) = true :=
  ⟨by decide,
    (isShown_iff_shown_or_present demoRegistry emptyContext litPreset none
      (some hiddenOptions) litHidden rfl [Op.show]).1.mpr (Or.inl (Or.inr (by decide))),
    by decide⟩

/-! ## The renderer is built lazily, and once -/

/-- One operation keeps the invariant "at most one construction, and none while there
is no renderer"; an operation other than `show()` and `render` builds nothing. -/
theorem step_constructions (uiFields : Registry) (c : Controller) (op : Op)
    (hinv : c.constructions ≤ 1 ∧ (c.impl = none → c.constructions = 0)) :
    ((step uiFields c op).constructions ≤ 1 ∧
      ((step uiFields c op).impl = none → (step uiFields c op).constructions = 0)) ∧
    (op.needsRenderer = false → (step uiFields c op).constructions = c.constructions) := by
  have keep : ∀ c' : Controller, c'.constructions = c.constructions →
      (c'.impl = none → c.impl = none) →
      c'.constructions ≤ 1 ∧ (c'.impl = none → c'.constructions = 0) := by
    intro c' h1 h2
    exact ⟨h1 ▸ hinv.1, fun hn => h1.trans (hinv.2 (h2 hn))⟩
  have built : ∀ c' : Controller, c.impl = none → c'.impl ≠ none →
      c'.constructions = c.constructions + 1 →
      c'.constructions ≤ 1 ∧ (c'.impl = none → c'.constructions = 0) := by
    intro c' h0 h1 h2
    refine ⟨?_, fun hn => absurd hn h1⟩
    rw [h2, hinv.2 h0]
  cases op with
  | «show» =>
    refine ⟨?_, fun h => by simp [Op.needsRenderer] at h⟩
    cases himpl : c.impl with
    | some r =>
      obtain ⟨_, h2, h3⟩ := (show_renderer uiFields c).1 (by simp [himpl])
      refine keep _ h3 (fun hn => ?_)
      have hn' : (Controller.show uiFields c).state.impl = none := hn
      rw [h2, himpl] at hn'
      exact absurd hn' (by simp)
    | none =>
      by_cases hreg : uiFields c.field.type = none
      · obtain ⟨_, _, _, h4⟩ := (show_renderer uiFields c).2.1 himpl hreg
        exact keep _ h4 (fun _ => himpl)
      · obtain ⟨_, h2, h3⟩ := (show_renderer uiFields c).2.2 himpl hreg
        exact built _ himpl h2 h3
  | render nodes =>
    refine ⟨?_, fun h => by simp [Op.needsRenderer] at h⟩
    cases himpl : c.impl with
    | some r =>
      obtain ⟨_, h2, h3⟩ := render_with_renderer uiFields c nodes (by simp [himpl])
      exact keep _ h3 (fun hn => absurd hn h2)
    | none =>
      rcases Nat.eq_zero_or_pos nodes with hz | hpos
      · subst hz
        exact keep _ rfl (fun _ => himpl)
      · by_cases hreg : uiFields c.field.type = none
        · obtain ⟨_, _, h3⟩ := (render_without_renderer uiFields c nodes himpl hpos).1 hreg
          exact keep _ h3 (fun _ => himpl)
        · obtain ⟨_, h2, h3⟩ := (render_without_renderer uiFields c nodes himpl hpos).2 hreg
          exact built _ himpl h2 h3
  | tags arg =>
    cases arg with
    | none => exact ⟨keep _ rfl (fun h => h), fun _ => rfl⟩
    | some val => exact ⟨keep _ rfl (fun h => h), fun _ => rfl⟩
  | state arg =>
    cases arg with
    | none => exact ⟨keep _ rfl (fun h => h), fun _ => rfl⟩
    | some val => exact ⟨keep _ rfl (fun h => h), fun _ => rfl⟩
  | focus =>
    cases himpl : c.impl with
    | none =>
      have hst : step uiFields c Op.focus = c := by simp [step, focus, himpl]
      rw [hst]
      exact ⟨hinv, fun _ => rfl⟩
    | some r =>
      have hc : (step uiFields c Op.focus).constructions = c.constructions := by
        simp [step, focus, himpl]
      have hi : (step uiFields c Op.focus).impl ≠ none := by
        simp [step, focus, himpl]
      exact ⟨keep _ hc (fun hn => absurd hn hi), fun _ => hc⟩
  | isShown => exact ⟨hinv, fun _ => rfl⟩
  | isAllowed => exact ⟨hinv, fun _ => rfl⟩
  | revert d => exact ⟨hinv, fun _ => rfl⟩
  | remove d => exact ⟨hinv, fun _ => rfl⟩

theorem run_constructions (uiFields : Registry) (c : Controller) (ops : List Op)
    (hinv : c.constructions ≤ 1 ∧ (c.impl = none → c.constructions = 0)) :
    ((run uiFields c ops).constructions ≤ 1 ∧
      ((run uiFields c ops).impl = none → (run uiFields c ops).constructions = 0)) ∧
    ((∀ op ∈ ops, op.needsRenderer = false) →
      (run uiFields c ops).constructions = c.constructions) := by
  induction ops generalizing c with
  | nil => exact ⟨hinv, fun _ => rfl⟩
  | cons op rest ih =>
    have hrun : run uiFields c (op :: rest) = run uiFields (step uiFields c op) rest := rfl
    obtain ⟨h1, h2⟩ := step_constructions uiFields c op hinv
    obtain ⟨i1, i2⟩ := ih (step uiFields c op) h1
    rw [hrun]
    refine ⟨i1, fun hall => ?_⟩
    rw [i2 (fun o ho => hall o (List.mem_cons_of_mem _ ho)), h2 (hall op (List.mem_cons_self _ _))]

/-- Two renders in a row, the first on at least one node: the second builds nothing. -/
theorem render_twice (uiFields : Registry) (c : Controller) (n m : Nat) (hn : 0 < n) :
    (render uiFields (render uiFields c n).state m).state.constructions =
      (render uiFields c n).state.constructions := by
  have hfield := (render_state uiFields c n).2.1
  have hafter : (render uiFields c n).state.impl ≠ none ∨
      ((render uiFields c n).state.impl = none ∧
        uiFields (render uiFields c n).state.field.type = none) := by
    cases himpl : c.impl with
    | some r => exact Or.inl (render_with_renderer uiFields c n (by simp [himpl])).2.1
    | none =>
      by_cases hreg : uiFields c.field.type = none
      · right
        refine ⟨((render_without_renderer uiFields c n himpl hn).1 hreg).2.1, ?_⟩
        rw [hfield]
        exact hreg
      · exact Or.inl ((render_without_renderer uiFields c n himpl hn).2 hreg).2.1
  rcases hafter with h | ⟨h1, h2⟩
  · exact (render_with_renderer uiFields _ m h).2.2
  · rcases Nat.eq_zero_or_pos m with hz | hpos
    · subst hz
      rfl
    · exact ((render_without_renderer uiFields _ m h1 hpos).1 h2).2.2

/-- C14. After construction and over every sequence of operations the renderer has
been constructed at most once. It is not constructed as long as the field was not
required to be visible: built with the `show` option false, and with neither `show()`
nor `render` among the operations, no construction has taken place. Of two successive
renders, the first on at least one node, the second constructs nothing. -/
theorem renderer_constructed_at_most_once (uiFields : Registry) (context : Context)
    (presetField : PresetField) (entity : Option Entity) (options : Option OptionsObj)
    (c0 : Controller)
    (h0 : uiField uiFields context presetField entity options = Except.ok c0)
    (ops : List Op) :
    (run uiFields c0 ops).constructions ≤ 1 ∧
      (optionTruthy ((objectAssign defaultOptions options).get "show") = false →
        (∀ op ∈ ops, op.needsRenderer = false) →
        (run uiFields c0 ops).constructions = 0) ∧
      (∀ n m : Nat, 0 < n →
        (render uiFields (render uiFields (run uiFields c0 ops) n).state m).state.constructions
          = (render uiFields (run uiFields c0 ops) n).state.constructions ∧
        (render uiFields (render uiFields (run uiFields c0 ops) n).state m).state.constructions
          ≤ 1) := by
  obtain ⟨⟨hshow, _⟩, hle, hnone, hhidden⟩ :=
    uiField_ok uiFields context presetField entity options c0 h0
  obtain ⟨⟨r1, _⟩, r3⟩ := run_constructions uiFields c0 ops ⟨hle, hnone⟩
  refine ⟨r1, ?_, ?_⟩
  · intro hopt hall
    rw [r3 hall]
    exact hhidden (hshow.trans hopt)
  · intro n m hn
    have htwo := render_twice uiFields (run uiFields c0 ops) n m hn
    refine ⟨htwo, ?_⟩
    have hrun : (render uiFields (render uiFields (run uiFields c0 ops) n).state m).state =
        run uiFields c0 (ops ++ [Op.render n, Op.render m]) := by
      simp [run, step, List.foldl_append]
    rw [hrun]
    exact (run_constructions uiFields c0 _ ⟨hle, hnone⟩).1.1

/-- Witness of C14: a controller built with `{show: false}` has built no renderer after
`tags`, `state`, `focus`, `isShown`, `isAllowed`, `revert` and `remove`, and exactly one
after `show()` and two renders. -/
theorem renderer_constructed_at_most_once_witness :
    (run demoRegistry litHidden
        [Op.tags (some [("lit", some "no")]), Op.state (some "hover"), Op.focus, Op.isShown,
          Op.isAllowed, Op.revert litHidden.field, Op.remove litHidden.field]).constructions
        = 0 ∧
      (run demoRegistry litHidden [Op.show, Op.render 1, Op.render 1]).constructions = 1 ∧
      (run demoRegistry litHidden [Op.show, Op.render 1, Op.render 1]).constructions ≤ 1 :=
  ⟨(renderer_constructed_at_most_once demoRegistry emptyContext litPreset none
      (some hiddenOptions) litHidden rfl _).2.1 (by decide) (by decide),
    by decide,
    (renderer_constructed_at_most_once demoRegistry emptyContext litPreset none
      (some hiddenOptions) litHidden rfl _).1⟩

/-- C15. When the field's type has no registered renderer factory, every operation
that has to construct the renderer throws and leaves no renderer handle: the
constructor with the `show` option true throws and returns no controller; `show()`
without renderer throws, having dispatched nothing; `render` without renderer, on at
least one node, throws. -/
theorem missing_factory_propagates (uiFields : Registry) :
    (∀ (context : Context) (presetField : PresetField) (entity : Option Entity)
        (options : Option OptionsObj),
      uiFields presetField.type = none → presetField.impl = none →
      optionTruthy ((objectAssign defaultOptions options).get "show") = true →
      uiField uiFields context presetField entity options =
        Except.error JSError.typeError) ∧
    (∀ c : Controller, uiFields c.field.type = none → c.impl = none →
      (Controller.show uiFields c).error = some JSError.typeError ∧
      (Controller.show uiFields c).events = [] ∧
      (Controller.show uiFields c).state.impl = none) ∧
    (∀ (c : Controller) (nodes : Nat), uiFields c.field.type = none → c.impl = none →
      0 < nodes →
      (render uiFields c nodes).error = some JSError.typeError ∧
      (render uiFields c nodes).state.impl = none) := by
  refine ⟨?_, ?_, ?_⟩
  · intro context presetField entity options hreg himpl hshow
    have hg : ((initialState context presetField entity options)._show &&
        (initialState context presetField entity options).impl.isNone) = true := by
      have h1 : (initialState context presetField entity options)._show = true := hshow
      have h2 : (initialState context presetField entity options).impl = none := himpl
      rw [h1, h2]
      rfl
    unfold uiField
    simp only [hg, if_true]
    exact createField_error uiFields _ hreg
  · intro c hreg himpl
    obtain ⟨h1, h2, h3, _⟩ := (show_renderer uiFields c).2.1 himpl hreg
    exact ⟨h1, h2, h3⟩
  · intro c nodes hreg himpl hn
    obtain ⟨h1, h2, _⟩ := (render_without_renderer uiFields c nodes himpl hn).1 hreg
    exact ⟨h1, h2⟩

/-- Witness of C15: the type `unknown` has no factory in `demoRegistry`; the
constructor with default options, `show()` and `render` on one node all throw. -/
theorem missing_factory_propagates_witness :
    uiField demoRegistry emptyContext litPresetUnknownType none none =
        Except.error JSError.typeError ∧
      (Controller.show demoRegistry litUnknownHidden).error = some JSError.typeError ∧
      (Controller.show demoRegistry litUnknownHidden).state.impl = none ∧
      (render demoRegistry litUnknownHidden 1).error = some JSError.typeError ∧
      (render demoRegistry litUnknownHidden 1).state.impl = none :=
  have h := missing_factory_propagates demoRegistry
  ⟨h.1 emptyContext litPresetUnknownType none none (by decide) rfl (by decide),
    (h.2.1 litUnknownHidden (by decide) rfl).1,
    (h.2.1 litUnknownHidden (by decide) rfl).2.2,
    (h.2.2 litUnknownHidden 1 (by decide) rfl (by decide)).1,
    (h.2.2 litUnknownHidden 1 (by decide) rfl (by decide)).2⟩

/-! ## Defaulting of `keys` and of the options -/

/-- C16, as stated, fails: a definition that supplies the empty `keys` list is kept as
it is, since an empty array is truthy; the controller's keys list is empty. -/
theorem keys_nonempty_counterexample :
    ∃ c : Controller,
      uiField demoRegistry emptyContext namePresetNoKeys none none = Except.ok c ∧
      c.field.keys = [] :=
  ⟨_, rfl, rfl⟩

/-- C16, amended. The controller's keys list is the definition's own keys list when it
supplies one, and exactly the one-element list holding the primary key when it does
not, so that the primary key is its first element; it is non-empty unless the
definition supplies the empty list. -/
theorem keys_defaulting (uiFields : Registry) (context : Context)
    (presetField : PresetField) (entity : Option Entity) (options : Option OptionsObj)
    (c0 : Controller)
    (h0 : uiField uiFields context presetField entity options = Except.ok c0) :
    (presetField.keys = none →
        c0.field.keys = [presetField.key] ∧ c0.field.keys.head? = some presetField.key) ∧
      (∀ keys, presetField.keys = some keys → c0.field.keys = keys) ∧
      (presetField.keys ≠ some [] → c0.field.keys ≠ []) := by
  have hf := (uiField_ok uiFields context presetField entity options c0 h0).1.2.1
  have hkeys : c0.field.keys = match presetField.keys with
      | some keys => keys
      | none => [presetField.key] := by
    rw [hf]
    rfl
  refine ⟨?_, ?_, ?_⟩
  · intro hnone
    rw [hkeys, hnone]
    exact ⟨rfl, rfl⟩
  · intro keys hsome
    rw [hkeys, hsome]
  · intro hne
    rw [hkeys]
    cases hk : presetField.keys with
    | none => simp
    | some keys =>
      intro hempty
      apply hne
      rw [hk]
      exact congrArg some hempty

/-- Witness of C16 amended: the definition of `name` without `keys` gives the keys
list `[name]`. -/
theorem keys_defaulting_witness :
    ∃ c : Controller,
      uiField demoRegistry emptyContext namePreset none none = Except.ok c ∧
      c.field.keys = ["name"] ∧ c.field.keys.head? = some "name" :=
  ⟨_, rfl,
    (keys_defaulting demoRegistry emptyContext namePreset none none _ rfl).1 rfl⟩

theorem optionsGet_cons (k : String) (w : Bool) (rest : OptionsObj) (name : String) :
    OptionsObj.get ((k, w) :: rest) name = if name = k then some w else OptionsObj.get rest name := by
  by_cases h : name = k
  · subst h
    simp [OptionsObj.get, List.lookup]
  · have hb : (name == k) = false := by simpa using h
    simp [OptionsObj.get, List.lookup, hb, h]

theorem optionsGet_set (o : OptionsObj) (k : String) (v : Bool) (name : String) :
    OptionsObj.get (OptionsObj.set o k v) name =
      if name = k then some v else OptionsObj.get o name := by
  induction o with
  | nil =>
    rw [OptionsObj.set, optionsGet_cons]
  | cons kw rest ih =>
    obtain ⟨k', w⟩ := kw
    by_cases hk : k' = k
    · subst hk
      have hset : OptionsObj.set ((k', w) :: rest) k' v = (k', v) :: rest := by
        simp [OptionsObj.set]
      rw [hset, optionsGet_cons, optionsGet_cons]
      by_cases h : name = k' <;> simp [h]
    · have hb : (k' == k) = false := by simpa using hk
      have hset : OptionsObj.set ((k', w) :: rest) k v = (k', w) :: OptionsObj.set rest k v := by
        simp [OptionsObj.set, hb]
      rw [hset, optionsGet_cons, optionsGet_cons, ih]
      by_cases h1 : name = k'
      · have h2 : name ≠ k := fun h => hk (h1.symm.trans h)
        simp [h1, hk]
      · simp [h1]

theorem optionsGet_eq_none_of_not_mem (o : OptionsObj) (name : String)
    (h : name ∉ o.map Prod.fst) : OptionsObj.get o name = none := by
  induction o with
  | nil => rfl
  | cons kw rest ih =>
    obtain ⟨k, w⟩ := kw
    simp only [List.map_cons, List.mem_cons, not_or] at h
    rw [optionsGet_cons, if_neg h.1]
    exact ih h.2

/-- Reading an option after `Object.assign(target, source)`: the value of the source
when it has the property, the value of the target otherwise. -/
theorem objectAssign_get (target src : OptionsObj) (hnd : (src.map Prod.fst).Nodup)
    (name : String) :
    OptionsObj.get (objectAssign target (some src)) name =
      match OptionsObj.get src name with
      | some v => some v
      | none => OptionsObj.get target name := by
  have hfold : ∀ (t s : OptionsObj), objectAssign t (some s) =
      s.foldl (fun t kv => OptionsObj.set t kv.1 kv.2) t := fun _ _ => rfl
  rw [hfold]
  induction src generalizing target with
  | nil => rfl
  | cons kw rest ih =>
    obtain ⟨k, w⟩ := kw
    have hnd' : k ∉ rest.map Prod.fst ∧ (rest.map Prod.fst).Nodup := by
      simpa using hnd
    rw [List.foldl_cons, ih _ hnd'.2, optionsGet_cons, optionsGet_set]
    by_cases h : name = k
    · subst h
      rw [optionsGet_eq_none_of_not_mem rest name hnd'.1]
      simp
    · simp [h]

/-- C17. For every options record passed to the constructor (an object: no property
name twice), each of the five recognised options has the value given in the record
when the record specifies it, and the default `true` when the record does not specify
it or when no record is passed; `_show` is the effective value of `show`. -/
theorem options_merge_over_defaults (uiFields : Registry) (context : Context)
    (presetField : PresetField) (entity : Option Entity) (options : Option OptionsObj)
    (c0 : Controller)
    (h0 : uiField uiFields context presetField entity options = Except.ok c0)
    (hwf : ∀ record, options = some record → (record.map Prod.fst).Nodup)
    (name : String) (hname : name ∈ ["show", "wrap", "remove", "revert", "info"]) :
    (∀ record v, options = some record → OptionsObj.get record name = some v →
        OptionsObj.get c0.options name = some v) ∧
      ((options = none ∨ ∃ record, options = some record ∧ OptionsObj.get record name = none) →
        OptionsObj.get c0.options name = some true) ∧
      c0._show = optionTruthy (OptionsObj.get c0.options "show") := by
  obtain ⟨⟨hshow, _, _, _, hopt⟩, _⟩ :=
    uiField_ok uiFields context presetField entity options c0 h0
  have hdef : OptionsObj.get defaultOptions name = some true := by
    simp only [List.mem_cons, List.mem_singleton, List.not_mem_nil, or_false] at hname
    rcases hname with h | h | h | h | h <;> subst h <;> decide
  refine ⟨?_, ?_, ?_⟩
  · intro record v hrec hv
    rw [hopt, hrec, objectAssign_get _ _ (hwf record hrec), hv]
  · rintro (hnone | ⟨record, hrec, hv⟩)
    · rw [hopt, hnone]
      exact hdef
    · rw [hopt, hrec, objectAssign_get _ _ (hwf record hrec), hv]
      exact hdef
  · rw [hshow, hopt]

/-- Witness of C17: the record `{show: false}` gives `show` false and leaves `info` at
its default `true`. -/
theorem options_merge_over_defaults_witness :
    OptionsObj.get litHidden.options "show" = some false ∧
      OptionsObj.get litHidden.options "info" = some true :=
  ⟨(options_merge_over_defaults demoRegistry emptyContext litPreset none (some hiddenOptions)
      litHidden rfl (fun record h => by cases h; decide) "show" (by decide)).1
      hiddenOptions false rfl (by decide),
    (options_merge_over_defaults demoRegistry emptyContext litPreset none (some hiddenOptions)
      litHidden rfl (fun record h => by cases h; decide) "info" (by decide)).2.1
      (Or.inr ⟨hiddenOptions, rfl, by decide⟩)⟩

/-! ## The accessors `state` and `tags` -/

/-- C18. Called with an argument `v`, `state` and `tags` return the controller itself,
and a following call without argument returns `v`; a call without argument leaves the
closure state as it is; setting one of the two does not change what the other
returns; a controller just built returns `''` and the empty mapping. -/
theorem accessors_get_set (c : Controller) (v : String) (val : Tags) :
    ((stateAccessor c (some v)).2 = AccessorResult.self ∧
        (stateAccessor (stateAccessor c (some v)).1 none).2 = AccessorResult.value v ∧
        (stateAccessor c none).1 = c ∧
        (stateAccessor c none).2 = AccessorResult.value c._state) ∧
      ((tagsAccessor c (some val)).2 = AccessorResult.self ∧
        (tagsAccessor (tagsAccessor c (some val)).1 none).2 = AccessorResult.value val ∧
        (tagsAccessor c none).1 = c ∧
        (tagsAccessor c none).2 = AccessorResult.value c._tags) ∧
      ((tagsAccessor (stateAccessor c (some v)).1 none).2 = (tagsAccessor c none).2 ∧
        (stateAccessor (tagsAccessor c (some val)).1 none).2 = (stateAccessor c none).2) ∧
      (∀ (uiFields : Registry) (context : Context) (presetField : PresetField)
          (entity : Option Entity) (options : Option OptionsObj) (c0 : Controller),
        uiField uiFields context presetField entity options = Except.ok c0 →
        (stateAccessor c0 none).2 = AccessorResult.value "" ∧
          (tagsAccessor c0 none).2 = AccessorResult.value []) := by
  refine ⟨⟨rfl, rfl, rfl, rfl⟩, ⟨rfl, rfl, rfl, rfl⟩, ⟨rfl, rfl⟩, ?_⟩
  intro uiFields context presetField entity options c0 h0
  obtain ⟨⟨_, _, htags, hstate, _⟩, _⟩ :=
    uiField_ok uiFields context presetField entity options c0 h0
  constructor
  · show AccessorResult.value c0._state = AccessorResult.value ""
    rw [hstate]
  · show AccessorResult.value c0._tags = AccessorResult.value []
    rw [htags]

/-- Witness of C18: a controller of `name` just built returns `''` and the empty
mapping; after `state('hover')` it returns `hover`. -/
theorem accessors_get_set_witness :
    (stateAccessor litHidden none).2 = AccessorResult.value "" ∧
      (tagsAccessor litHidden none).2 = AccessorResult.value [] ∧
      (stateAccessor (stateAccessor litHidden (some "hover")).1 none).2 =
        AccessorResult.value "hover" :=
  have h := accessors_get_set litHidden "hover" [("lit", some "yes")]
  ⟨(h.2.2.2 demoRegistry emptyContext litPreset none (some hiddenOptions) litHidden rfl).1,
    (h.2.2.2 demoRegistry emptyContext litPreset none (some hiddenOptions) litHidden rfl).2,
    h.1.2.1⟩

/-! ## Patches applied to the snapshot -/

end UiField
